import Mathlib

/-!
Verification of the rust-chess position representation, move generator and
perft driver against its specification.

The Rust sources are shallowly embedded: `u64` bitboards become `Nat` with an
explicit `% 2 ^ 64` wherever a left shift may overflow, vectors become `List`,
and fallible functions return `Except`/`Option`.  The repository mixes files
from several revisions; each embedded definition names the file it comes
from.  Parts of the `Board` implementation (the incremental make/unmake
engine) are declared and called in `src/game.rs` and
`src/move_generation/impl.rs` but their bodies are not among the source
files; those are modelled from the specification and marked as such.
-/

namespace Chess

/-! ## Bitboard constants (src/bitboard/impl.rs, also src/bitboard.rs) -/
def U64LIMIT : Nat := 0x10000000000000000

-- `FILES` array, file a = lowest bit of each byte (impl.rs lines 219-228)

def FILES : List Nat :=
  [0x0101010101010101, 0x0202020202020202, 0x0404040404040404,
   0x0808080808080808, 0x1010101010101010, 0x2020202020202020,
   0x4040404040404040, 0x8080808080808080]

-- `RANKS` array copied digit for digit from impl.rs lines 231-240.
-- Note that the source lists `0x00_00_00_00_FF_00_00_00` twice (indices 3
-- and 4), so entries 4..7 each hold the mask of the rank below their name.

def RANKS : List Nat :=
  [0x00000000000000FF, 0x000000000000FF00, 0x0000000000FF0000,
   0x00000000FF000000, 0x00000000FF000000, 0x000000FF00000000,
   0x0000FF0000000000, 0x00FF000000000000]

def FILE_H : Nat := FILES.getD 7 0

def NOT_FILE_H : Nat := 0x7f7f7f7f7f7f7f7f

def FILE_A : Nat := FILES.getD 0 0

def NOT_FILE_A : Nat := 0xfefefefefefefefe

def FILE_GH : Nat := 0xC0C0C0C0C0C0C0C0

def NOT_FILE_GH : Nat := 0x3f3f3f3f3f3f3f3f

def FILE_AB : Nat := 0x0303030303030303

def NOT_FILE_AB : Nat := 0xfcfcfcfcfcfcfcfc

def RANK_1 : Nat := RANKS.getD 0 0

def RANK_8 : Nat := RANKS.getD 7 0

def PAWN_INITIAL : Nat := 0x00FF00000000FF00

/-- Modelled from the spec: `PAWN_PROMOTION_MASK` (ranks 1 and 8) is used by
`src/move_generation/impl.rs` and `src/game.rs` but is not defined in the
source files present; the spec (§3) says it covers ranks 1 and 8. -/
def PAWN_PROMOTION_MASK : Nat := 0xFF000000000000FF

/-- Modelled from the spec: `KING_INITIAL` (e1 | e8) is used by
`src/move_generation/impl.rs` but is not defined in the source files
present; the spec (§3) says it is `e1 | e8`. -/
def KING_INITIAL : Nat := (1 <<< 4) ||| (1 <<< 60)

/-! ## DirectionalShift (src/bitboard/impl.rs lines 111-211)

Rust `u64 << k` discards bits shifted past bit 63, hence the `% 2 ^ 64` on
every left shift; right shifts cannot overflow. -/
def north (x : Nat) : Nat := (x <<< 8) % U64LIMIT

def south (x : Nat) : Nat := x >>> 8

def east (x : Nat) : Nat := ((x &&& NOT_FILE_H) <<< 1) % U64LIMIT

def west (x : Nat) : Nat := (x &&& NOT_FILE_A) >>> 1

def north_east (x : Nat) : Nat := ((x &&& NOT_FILE_H) <<< 9) % U64LIMIT

def north_west (x : Nat) : Nat := ((x &&& NOT_FILE_A) <<< 7) % U64LIMIT

def south_east (x : Nat) : Nat := (x &&& NOT_FILE_H) >>> 7

def south_west (x : Nat) : Nat := (x &&& NOT_FILE_A) >>> 9

def no_no_ea (x : Nat) : Nat := ((x &&& NOT_FILE_H) <<< 17) % U64LIMIT

def no_ea_ea (x : Nat) : Nat := ((x &&& NOT_FILE_GH) <<< 10) % U64LIMIT

def so_ea_ea (x : Nat) : Nat := (x &&& NOT_FILE_GH) >>> 6

def so_so_ea (x : Nat) : Nat := (x &&& NOT_FILE_H) >>> 15

def no_no_we (x : Nat) : Nat := ((x &&& NOT_FILE_A) <<< 15) % U64LIMIT

def no_we_we (x : Nat) : Nat := ((x &&& NOT_FILE_AB) <<< 6) % U64LIMIT

def so_we_we (x : Nat) : Nat := (x &&& NOT_FILE_AB) >>> 10

def so_so_we (x : Nat) : Nat := (x &&& NOT_FILE_A) >>> 17

def FILE_B : Nat := FILES.getD 1 0

def FILE_G : Nat := FILES.getD 6 0

/-! ## Attack lookup tables (src/bitboard/impl.rs lines 70-109)

`generate_pawn_lookup` fills row 0 ("0 is white" per the source comment)
with `south_east | south_west` of each square and row 1 with
`north_east | north_west`; `generate_knight_lookup` takes the union of the
eight knight shifts.  The `while` loops over `j < 2`, `i < 64` are rendered
as maps over `List.range`. -/
def generate_pawn_lookup : List (List Nat) :=
  [(List.range 64).map (fun i => south_east (1 <<< i) ||| south_west (1 <<< i)),
   (List.range 64).map (fun i => north_east (1 <<< i) ||| north_west (1 <<< i))]

def generate_knight_lookup : List Nat :=
  (List.range 64).map (fun i =>
    no_no_ea (1 <<< i) ||| no_ea_ea (1 <<< i) ||| so_ea_ea (1 <<< i) |||
    so_so_ea (1 <<< i) ||| no_no_we (1 <<< i) ||| no_we_we (1 <<< i) |||
    so_we_we (1 <<< i) ||| so_so_we (1 <<< i))

/-- Pointwise form of `generate_pawn_lookup` (same per-square expression as
the loop body); the agreement with the table is checked below by `decide`,
and the engine's attack queries use this form. -/
def pawn_attacks_of (j : Nat) (i : Nat) : Nat :=
  if j = 0 then south_east (1 <<< i) ||| south_west (1 <<< i)
  else north_east (1 <<< i) ||| north_west (1 <<< i)

/-- Pointwise form of `generate_knight_lookup`. -/
def knight_attacks_of (i : Nat) : Nat :=
  no_no_ea (1 <<< i) ||| no_ea_ea (1 <<< i) ||| so_ea_ea (1 <<< i) |||
  so_so_ea (1 <<< i) ||| no_no_we (1 <<< i) ||| no_we_we (1 <<< i) |||
  so_we_we (1 <<< i) ||| so_so_we (1 <<< i)

/-- What the spec (§4.2) and the claim say the table holds: the squares a
pawn of the given colour standing on square `i` attacks (row 0 = White
attacks to the north, row 1 = Black attacks to the south).  The repository's
own unit test `pawn_attacks_lookup` in `src/main.rs` lists exactly these
values. -/
def spec_pawn_attacks (j : Nat) (i : Nat) : Nat :=
  if j = 0 then north_east (1 <<< i) ||| north_west (1 <<< i)
  else south_east (1 <<< i) ||| south_west (1 <<< i)

/-! ## Algebraic square parsing (src/bitboard/display.rs lines 16-38)

The Rust function checks only the length; the two characters then go
through `c as u8 - b'a'` / `c as u8 - b'1'` and `1 << (rank * 8 + file)`.
With the debug profile (the profile under which the repository's tests
run) a subtraction underflow or a shift amount of 64 or more panics; both
are modelled by the `panic` constructor.  The debug assertion
`count_ones() == 1` cannot fire on the remaining paths. -/
inductive FAResult where
  | ok (bb : Nat)
  | err (input : List Char)
  | panic
  deriving DecidableEq, Repr

def from_algebraic (s : List Char) : FAResult :=
  if s.length ≠ 2 then .err s
  else if (s.getD 0 'a').toNat % 256 < 97 ∨ (s.getD 1 'a').toNat % 256 < 49 then .panic
  else if 64 ≤ ((s.getD 1 'a').toNat % 256 - 49) * 8 + ((s.getD 0 'a').toNat % 256 - 97) then .panic
  else .ok (1 <<< (((s.getD 1 'a').toNat % 256 - 49) * 8 + ((s.getD 0 'a').toNat % 256 - 97)))

def file_chars : List Char := ['a', 'b', 'c', 'd', 'e', 'f', 'g', 'h']

def rank_chars : List Char := ['1', '2', '3', '4', '5', '6', '7', '8']

/-! ## Piece kinds and colours (src/piece.rs) -/
inductive Color where
  | White
  | Black
  deriving DecidableEq, Repr

def Color.opposite : Color → Color
  | .White => .Black
  | .Black => .White

inductive PieceKind where
  | Pawn
  | Knight
  | Bishop
  | Rook
  | Queen
  | King
  deriving DecidableEq, Repr

/-! ## Piece and move records

The current engine (src/game.rs, src/move_generation/impl.rs) carries
pieces with their square of origin; the spec (§3) gives the record
`{color, kind, position}`.  `Move` is the spec's §3 record; the
`with_*` builders and `with_promotions` follow src/move.rs lines 19-70. -/
structure Piece where
  color : Color
  kind : PieceKind
  position : Nat
  deriving DecidableEq, Repr

def Piece.new (color : Color) (kind : PieceKind) (position : Nat) : Piece :=
  ⟨color, kind, position⟩

structure Move where
  what : Piece
  fromSq : Nat
  toSq : Nat
  capture : Option Piece
  promotion : Option PieceKind
  en_passant : Option Nat
  castling : Nat
  castle_move : Option (Nat × Nat)
  deriving DecidableEq, Repr

def Move.new (fromSq toSq : Nat) (what : Piece) : Move :=
  { what := what, fromSq := fromSq, toSq := toSq, capture := none,
    promotion := none, en_passant := none, castling := 0, castle_move := none }

def Move.with_promotion (m : Move) (k : PieceKind) : Move :=
  { m with promotion := some k }

-- src/move.rs lines 51-58: the queen/rook/bishop/knight fan-out

def Move.with_promotions (m : Move) : List Move :=
  [m.with_promotion .Queen, m.with_promotion .Rook,
   m.with_promotion .Bishop, m.with_promotion .Knight]

def Move.with_capture (m : Move) (p : Piece) : Move :=
  { m with capture := some p }

def Move.with_en_passant (m : Move) (sq : Nat) : Move :=
  { m with en_passant := some sq }

def Move.with_castling_rights_loss (m : Move) (mask : Nat) : Move :=
  { m with castling := mask }

def Move.with_castle_move (m : Move) (rooks : Nat × Nat) : Move :=
  { m with castle_move := some rooks }

/-! ## Castling rights and the board

Modelled from the spec: the `CastlingRights` bit mask (§3:
`{WK=0b1000, WQ=0b0100, BK=0b0010, BQ=0b0001}`) and the `Board` record
(§3 attribute list) are used throughout src/game.rs and
src/move_generation/impl.rs but their definitions are not among the
source files. -/
def WHITE_KINGSIDE : Nat := 0b1000

def WHITE_QUEENSIDE : Nat := 0b0100

def BLACK_KINGSIDE : Nat := 0b0010

def BLACK_QUEENSIDE : Nat := 0b0001

def WHITE_BOTH : Nat := 0b1100

def BLACK_BOTH : Nat := 0b0011

def get_castling_right (mask right : Nat) : Bool := (mask &&& right) != 0

def set_castling_right (mask right : Nat) : Nat := mask ||| right

structure OnePerColor (α : Type) where
  white : α
  black : α
  deriving DecidableEq, Repr

def OnePerColor.get {α : Type} (o : OnePerColor α) : Color → α
  | .White => o.white
  | .Black => o.black

def OnePerColor.set {α : Type} (o : OnePerColor α) : Color → α → OnePerColor α
  | .White, v => { o with white := v }
  | .Black, v => { o with black := v }

/-- Modelled from the spec (§3): eight piece/colour bitboards, side to
move, en-passant target, castling mask and the per-colour cached king
square.  The attack lookup tables the spec lists as per-board fields are
constant (`generate_pawn_lookup`/`generate_knight_lookup` at every
construction), so queries go through the pointwise functions above. -/
structure Board where
  pawns : Nat
  knights : Nat
  bishops : Nat
  rooks : Nat
  queens : Nat
  kings : Nat
  white : Nat
  black : Nat
  turn : Color
  en_passant : Option Nat
  castling : Nat
  king_position : OnePerColor (Option Nat)
  deriving DecidableEq, Repr

def Board.DEFAULT : Board :=
  { pawns := 0, knights := 0, bishops := 0, rooks := 0, queens := 0,
    kings := 0, white := 0, black := 0, turn := .White, en_passant := none,
    castling := 0, king_position := ⟨none, none⟩ }

def Board.get_color_mask (b : Board) (c : Color) : Nat :=
  match c with
  | .White => b.white
  | .Black => b.black

def Board.anything (b : Board) : Nat := b.white ||| b.black

def Board.occupied (b : Board) : Nat := b.white ||| b.black

/-- `u64::trailing_zeros` (`Bitboard::idx`, src/bitboard/impl.rs lines
290-293): index of the lowest set bit, 64 for the empty board. -/
def idx (x : Nat) : Nat := (List.range 64).findIdx (fun i => x.testBit i)

def U64MAX : Nat := 0xFFFFFFFFFFFFFFFF

-- `Bitboard::move_bit` (impl.rs lines 260-268): `*self ^= from; *self |= to`

def move_bit (x fromSq toSq : Nat) : Nat := (x ^^^ fromSq) ||| toSq

-- `Bitboard::clear_bit` (impl.rs lines 270-273): `self.0 &= !from.0`

def clear_bit (x fromSq : Nat) : Nat := x &&& (U64MAX ^^^ fromSq)

-- `Bitboard::is_empty` (impl.rs lines 280-283)

def is_empty (x : Nat) : Bool := x == 0

-- `Bitboard::intersects` (impl.rs lines 285-288)

def intersects (a b : Nat) : Bool := (a &&& b) != 0

/-- `Bitboard::pawn_initial` (impl.rs lines 256-258). -/
def pawn_initial (x color_mask : Nat) : Bool :=
  x &&& PAWN_INITIAL &&& color_mask == x

/-- Modelled from the spec (§3): `Board::spawn_piece` sets the kind and
colour bits of the piece's position and eagerly maintains the cached king
square. -/
def Board.spawn_piece (b : Board) (p : Piece) : Board :=
  let b := match p.kind with
    | .Pawn => { b with pawns := b.pawns ||| p.position }
    | .Knight => { b with knights := b.knights ||| p.position }
    | .Bishop => { b with bishops := b.bishops ||| p.position }
    | .Rook => { b with rooks := b.rooks ||| p.position }
    | .Queen => { b with queens := b.queens ||| p.position }
    | .King => { b with kings := b.kings ||| p.position,
                        king_position := b.king_position.set p.color (some (idx p.position)) }
  match p.color with
  | .White => { b with white := b.white ||| p.position }
  | .Black => { b with black := b.black ||| p.position }

/-- Modelled from the spec (§3): `Board::clear_piece` clears the kind and
colour bits of the piece's position. -/
def Board.clear_piece (b : Board) (p : Piece) : Board :=
  let b := match p.kind with
    | .Pawn => { b with pawns := clear_bit b.pawns p.position }
    | .Knight => { b with knights := clear_bit b.knights p.position }
    | .Bishop => { b with bishops := clear_bit b.bishops p.position }
    | .Rook => { b with rooks := clear_bit b.rooks p.position }
    | .Queen => { b with queens := clear_bit b.queens p.position }
    | .King => { b with kings := clear_bit b.kings p.position,
                        king_position := b.king_position.set p.color none }
  match p.color with
  | .White => { b with white := clear_bit b.white p.position }
  | .Black => { b with black := clear_bit b.black p.position }

/-- Modelled from the spec (§3 piece record): `Board::get_piece` reports
the occupant of a single-bit square; the colour comes from the occupancy
masks, the kind from the kind bitboards. -/
def Board.get_piece (b : Board) (square : Nat) : Option Piece :=
  let color := if b.white &&& square ≠ 0 then Color.White else Color.Black
  if b.pawns &&& square ≠ 0 then some (Piece.new color .Pawn square)
  else if b.knights &&& square ≠ 0 then some (Piece.new color .Knight square)
  else if b.bishops &&& square ≠ 0 then some (Piece.new color .Bishop square)
  else if b.rooks &&& square ≠ 0 then some (Piece.new color .Rook square)
  else if b.queens &&& square ≠ 0 then some (Piece.new color .Queen square)
  else if b.kings &&& square ≠ 0 then some (Piece.new color .King square)
  else none

/-- Rust's `Option::unwrap` on piece lookups; the embedded generators only
evaluate it on occupied squares. -/
def unwrapPiece (o : Option Piece) : Piece := o.getD (Piece.new .White .Pawn 0)

/-- Modelled from the spec (§4.3): the en-passant victim is the pawn of
colour `color` standing one step opposite to its own forward direction
from the target square (White victim north of a rank-3 target, Black
victim south of a rank-6 target). -/
def Board.get_en_passant_victim (b : Board) (ep : Nat) (color : Color) : Piece :=
  match color with
  | .White => Piece.new .White .Pawn (north ep)
  | .Black => Piece.new .Black .Pawn (south ep)

/-- Modelled from the spec (§4.5): `Board::move_piece`.  Step order as
specified: en-passant update, castle rook slide, rights delta (the §4.3
king moves carry the delta, so it is applied for every move record),
capture removal at `capture.position`, the mover's kind/colour bits,
king-square maintenance, promotion rewrite, and the §4.5 turn flip. -/
def Board.move_piece (b : Board) (m : Move) : Board :=
  let b := { b with en_passant := m.en_passant }
  let b := match m.castle_move with
    | some (rook_from, rook_to) =>
        let b := b.clear_piece (Piece.new m.what.color .Rook rook_from)
        b.spawn_piece (Piece.new m.what.color .Rook rook_to)
    | none => b
  let b := { b with castling := b.castling ^^^ m.castling }
  let b := match m.capture with
    | some p => b.clear_piece p
    | none => b
  let b := match m.what.kind with
    | .Pawn => { b with pawns := move_bit b.pawns m.fromSq m.toSq }
    | .Knight => { b with knights := move_bit b.knights m.fromSq m.toSq }
    | .Bishop => { b with bishops := move_bit b.bishops m.fromSq m.toSq }
    | .Rook => { b with rooks := move_bit b.rooks m.fromSq m.toSq }
    | .Queen => { b with queens := move_bit b.queens m.fromSq m.toSq }
    | .King => { b with kings := move_bit b.kings m.fromSq m.toSq,
                        king_position := b.king_position.set m.what.color (some (idx m.toSq)) }
  let b := match m.what.color with
    | .White => { b with white := move_bit b.white m.fromSq m.toSq }
    | .Black => { b with black := move_bit b.black m.fromSq m.toSq }
  let b := match m.promotion with
    | some k =>
        let b := { b with pawns := clear_bit b.pawns m.toSq }
        match k with
        | .Pawn => b
        | .Knight => { b with knights := b.knights ||| m.toSq }
        | .Bishop => { b with bishops := b.bishops ||| m.toSq }
        | .Rook => { b with rooks := b.rooks ||| m.toSq }
        | .Queen => { b with queens := b.queens ||| m.toSq }
        | .King => { b with kings := b.kings ||| m.toSq }
    | none => b
  { b with turn := b.turn.opposite }

/-- Modelled from the spec (§4.5): `Board::unmove_piece`, the inverse
steps in reverse order.  The captured piece is respawned by the caller
(`Game::unmake_move`, src/game.rs lines 543-546), not here.  The spec asks
for the prior en-passant target to be restored from a history snapshot,
but the history kept by src/game.rs stores bare moves only, so no prior
target reaches this function; the field is cleared. -/
def Board.unmove_piece (b : Board) (m : Move) : Board :=
  let b := match m.promotion with
    | some k =>
        let b := match k with
          | .Pawn => b
          | .Knight => { b with knights := clear_bit b.knights m.toSq }
          | .Bishop => { b with bishops := clear_bit b.bishops m.toSq }
          | .Rook => { b with rooks := clear_bit b.rooks m.toSq }
          | .Queen => { b with queens := clear_bit b.queens m.toSq }
          | .King => { b with kings := clear_bit b.kings m.toSq }
        { b with pawns := b.pawns ||| m.fromSq }
    | none =>
        match m.what.kind with
        | .Pawn => { b with pawns := move_bit b.pawns m.toSq m.fromSq }
        | .Knight => { b with knights := move_bit b.knights m.toSq m.fromSq }
        | .Bishop => { b with bishops := move_bit b.bishops m.toSq m.fromSq }
        | .Rook => { b with rooks := move_bit b.rooks m.toSq m.fromSq }
        | .Queen => { b with queens := move_bit b.queens m.toSq m.fromSq }
        | .King => { b with kings := move_bit b.kings m.toSq m.fromSq }
  let b := match m.what.kind with
    | .King => { b with king_position := b.king_position.set m.what.color (some (idx m.fromSq)) }
    | _ => b
  let b := match m.what.color with
    | .White => { b with white := move_bit b.white m.toSq m.fromSq }
    | .Black => { b with black := move_bit b.black m.toSq m.fromSq }
  let b := match m.castle_move with
    | some (rook_from, rook_to) =>
        let b := b.clear_piece (Piece.new m.what.color .Rook rook_to)
        b.spawn_piece (Piece.new m.what.color .Rook rook_from)
    | none => b
  let b := { b with castling := b.castling ^^^ m.castling }
  { b with en_passant := none, turn := b.turn.opposite }

/-! ## Directions (src/bitboard/impl.rs lines 9-68 and 191-210) -/
inductive Direction where
  | North | South | East | West
  | NorthEast | NorthWest | SouthEast | SouthWest
  | NoNoEa | NoEaEa | SoEaEa | SoSoEa
  | NoNoWe | NoWeWe | SoWeWe | SoSoWe
  deriving DecidableEq, Repr

def shift (x : Nat) : Direction → Nat
  | .North => north x
  | .South => south x
  | .East => east x
  | .West => west x
  | .NorthEast => north_east x
  | .NorthWest => north_west x
  | .SouthEast => south_east x
  | .SouthWest => south_west x
  | .NoNoEa => no_no_ea x
  | .NoEaEa => no_ea_ea x
  | .SoEaEa => so_ea_ea x
  | .SoSoEa => so_so_ea x
  | .NoNoWe => no_no_we x
  | .NoWeWe => no_we_we x
  | .SoWeWe => so_we_we x
  | .SoSoWe => so_so_we x

def Direction.SLIDING_MOVES : List Direction :=
  [.North, .South, .East, .West, .NorthEast, .NorthWest, .SouthEast, .SouthWest]

def Direction.STRAIGHT_MOVES : List Direction := [.North, .South, .East, .West]

def Direction.DIAGONAL_MOVES : List Direction :=
  [.NorthEast, .NorthWest, .SouthEast, .SouthWest]

def Direction.KNIGHT_MOVES : List Direction :=
  [.NoNoEa, .NoEaEa, .SoEaEa, .SoSoEa, .NoNoWe, .NoWeWe, .SoWeWe, .SoSoWe]

/-- Modelled from the spec (§4.3): `Direction::pawn_captures`, the two
capture directions of each colour (White NE and NW, Black SE and SW). -/
def Direction.pawn_captures : Color → List Direction
  | .White => [.NorthEast, .NorthWest]
  | .Black => [.SouthEast, .SouthWest]

/-- Index of a colour into `generate_pawn_lookup` ("0 is white, 1 is
black", src/bitboard/impl.rs line 77). -/
def colorIndex : Color → Nat
  | .White => 0
  | .Black => 1

/-- `from_algebraic(..).unwrap()` on the square literals used by the
castling generator. -/
def sq (s : List Char) : Nat :=
  match from_algebraic s with
  | .ok v => v
  | _ => 0

/-! ## Attack queries (src/move_generation/impl.rs lines 363-469)

The ray walks recurse on the shifted square; a ray on an 8x8 board is at
most 7 steps long, so a fuel of 8 makes the recursion structural without
cutting any reachable path short. -/
def Board.slide_until_blocked (b : Board) :
    Nat → Direction → Color → Nat → Option Piece
  | _, _, _, 0 => none
  | current_square, direction, color, fuel + 1 =>
    let color_mask := match color with
      | .White => b.white
      | .Black => b.black
    let opposite_color_mask := match color with
      | .White => b.black
      | .Black => b.white
    let toB := shift current_square direction
    bif is_empty toB then none
    else bif intersects toB opposite_color_mask then some (unwrapPiece (b.get_piece toB))
    else bif intersects toB color_mask then none
    else b.slide_until_blocked toB direction color fuel

def Board.is_attacked (b : Board) (square : Nat) (i : Nat) (color : Color) : Bool :=
  let opposite_color_mask := b.get_color_mask color.opposite
  bif (pawn_attacks_of (colorIndex color.opposite) i &&& b.pawns &&& opposite_color_mask) != 0 then
    true
  else bif (knight_attacks_of i &&& (b.knights &&& opposite_color_mask)) != 0 then
    true
  else bif Direction.STRAIGHT_MOVES.any (fun d =>
      match b.slide_until_blocked square d color 8 with
      | some p => match p.kind with
        | .Queen => true
        | .Rook => true
        | _ => false
      | none => false) then
    true
  else Direction.DIAGONAL_MOVES.any (fun d =>
      match b.slide_until_blocked square d color 8 with
      | some p => match p.kind with
        | .Queen => true
        | .Bishop => true
        | _ => false
      | none => false)

def Board.is_check (b : Board) (color : Color) : Bool :=
  -- `self.king_position(color)` panics when the cache is unset; the cache
  -- is always set on the states evaluated here.
  let king_position := (b.king_position.get color).getD 64
  let square := (1 <<< king_position) % U64LIMIT
  b.is_attacked square king_position color

/-! ## Pseudo-legal move generation (src/move_generation/impl.rs lines 41-361) -/
def Board.gen_sliding_moves_recursive (b : Board) (piece : Piece) :
    Nat → Nat → Direction → Nat → List Move
  | _, _, _, 0 => []
  | origin_square, current_square, direction, fuel + 1 =>
    let color_mask := match piece.color with
      | .White => b.white
      | .Black => b.black
    let opposite_color_mask := match piece.color with
      | .White => b.black
      | .Black => b.white
    let toB := shift current_square direction
    bif !(is_empty toB) && !(intersects toB color_mask) then
      let new_move := Move.new origin_square toB piece
      bif intersects toB opposite_color_mask then
        [new_move.with_capture (unwrapPiece (b.get_piece toB))]
      else
        new_move :: b.gen_sliding_moves_recursive piece origin_square toB direction fuel
    else []

def Board.gen_sliding_moves (b : Board) (piece : Piece) (origin_square : Nat)
    (direction : Direction) : List Move :=
  b.gen_sliding_moves_recursive piece origin_square origin_square direction 8

def Board.gen_moves_from_piece (b : Board) (origin_square : Nat) : List Move :=
  match b.get_piece origin_square with
  | none => []
  | some piece =>
    let current_turn_mask := match b.turn with
      | .White => b.white
      | .Black => b.black
    let opposite_color_mask := match b.turn with
      | .White => b.black
      | .Black => b.white
    match piece.kind with
    | .Pawn =>
      let toB := match b.turn with
        | .White => north origin_square
        | .Black => south origin_square
      let colors_mask := b.white ||| b.black
      let push_moves :=
        bif !(is_empty toB) && !(intersects toB colors_mask) then
          let new_move := Move.new origin_square toB piece
          let single :=
            bif intersects toB PAWN_PROMOTION_MASK then new_move.with_promotions
            else [new_move]
          let double :=
            bif pawn_initial origin_square current_turn_mask then
              let new_to := match b.turn with
                | .White => north (north origin_square)
                | .Black => south (south origin_square)
              bif !(is_empty new_to) && !(intersects new_to colors_mask) then
                [(Move.new origin_square new_to piece).with_en_passant toB]
              else []
            else []
          single ++ double
        else []
      let capture_moves := (Direction.pawn_captures b.turn).flatMap (fun d =>
        let toB := shift origin_square d
        bif is_empty toB then []
        else bif intersects toB opposite_color_mask then
          let new_move := (Move.new origin_square toB piece).with_capture
            (unwrapPiece (b.get_piece toB))
          bif intersects toB PAWN_PROMOTION_MASK then new_move.with_promotions
          else [new_move]
        else match b.en_passant with
          | some en_passant_square =>
            bif toB == en_passant_square then
              [(Move.new origin_square toB piece).with_capture
                (b.get_en_passant_victim en_passant_square b.turn.opposite)]
            else []
          | none => [])
      push_moves ++ capture_moves
    | .Knight =>
      Direction.KNIGHT_MOVES.flatMap (fun knight_move =>
        let toB := shift origin_square knight_move
        bif !(is_empty toB) && !(intersects toB current_turn_mask) then
          bif intersects toB opposite_color_mask then
            [(Move.new origin_square toB piece).with_capture
              (unwrapPiece (b.get_piece toB))]
          else [Move.new origin_square toB piece]
        else [])
    | .Bishop =>
      Direction.DIAGONAL_MOVES.flatMap (fun d => b.gen_sliding_moves piece origin_square d)
    | .Rook =>
      Direction.STRAIGHT_MOVES.flatMap (fun d => b.gen_sliding_moves piece origin_square d)
    | .Queen =>
      Direction.SLIDING_MOVES.flatMap (fun d => b.gen_sliding_moves piece origin_square d)
    | .King =>
      let lost_rights := match piece.color with
        | .White => WHITE_BOTH
        | .Black => BLACK_BOTH
      let step_moves := Direction.SLIDING_MOVES.flatMap (fun d =>
        let toB := shift origin_square d
        bif !(is_empty toB) && !(intersects toB current_turn_mask) then
          let new_move := (Move.new origin_square toB piece).with_castling_rights_loss lost_rights
          bif intersects toB opposite_color_mask then
            [new_move.with_capture (unwrapPiece (b.get_piece toB))]
          else [new_move]
        else [])
      let castle_moves :=
        bif intersects origin_square KING_INITIAL then
          match piece.color with
          | .White =>
            let short :=
              bif get_castling_right b.castling WHITE_KINGSIDE then
                let king_destination := east (east origin_square)
                let rook_origin := east king_destination
                let rook_destination := east origin_square
                bif !(intersects rook_destination b.anything) &&
                    !(intersects king_destination b.anything) &&
                    !(b.is_attacked rook_destination (idx rook_destination) .White) then
                  [((Move.new origin_square king_destination piece).with_castling_rights_loss
                      lost_rights).with_castle_move (rook_origin, rook_destination)]
                else []
              else []
            let long :=
              bif get_castling_right b.castling WHITE_QUEENSIDE then
                let travel_squares := [sq ['b', '1'], sq ['c', '1'], sq ['d', '1']]
                let safe_squares := travel_squares.drop 1
                let any_square_full := travel_squares.any (fun s => intersects s b.anything)
                let any_square_attacked := safe_squares.any (fun s =>
                  b.is_attacked s (idx s) .White)
                bif !any_square_attacked && !any_square_full then
                  [((Move.new origin_square (sq ['c', '1']) piece).with_castling_rights_loss
                      lost_rights).with_castle_move (sq ['a', '1'], sq ['d', '1'])]
                else []
              else []
            short ++ long
          | .Black =>
            let short :=
              bif get_castling_right b.castling BLACK_KINGSIDE then
                let king_destination := east (east origin_square)
                let rook_origin := east king_destination
                let rook_destination := east origin_square
                bif !(intersects rook_destination b.anything) &&
                    !(intersects king_destination b.anything) &&
                    !(b.is_attacked rook_destination (idx rook_destination) .Black) then
                  [((Move.new origin_square king_destination piece).with_castling_rights_loss
                      lost_rights).with_castle_move (rook_origin, rook_destination)]
                else []
              else []
            -- NOTE: the source gates Black's long castle on
            -- `CastlingRights::WHITE_QUEENSIDE` (impl.rs lines 313-315)
            let long :=
              bif get_castling_right b.castling WHITE_QUEENSIDE then
                let travel_squares := [sq ['b', '8'], sq ['c', '8'], sq ['d', '8']]
                let safe_squares := travel_squares.drop 1
                let any_square_full := travel_squares.any (fun s => intersects s b.anything)
                let any_square_attacked := safe_squares.any (fun s =>
                  b.is_attacked s (idx s) .Black)
                bif !any_square_attacked && !any_square_full then
                  [((Move.new origin_square (sq ['c', '8']) piece).with_castling_rights_loss
                      lost_rights).with_castle_move (sq ['a', '8'], sq ['d', '8'])]
                else []
              else []
            short ++ long
        else []
      step_moves ++ castle_moves

/-- The `for i in 0..64` scan of `gen_moves`, as a recursion with
`64 - fuel` as the loop counter. -/
def Board.gen_moves_loop (b : Board) (current_turn_mask : Nat) : Nat → List Move
  | 0 => []
  | fuel + 1 =>
    let i := 63 - fuel
    let square := 1 <<< i
    (bif intersects square current_turn_mask then b.gen_moves_from_piece square
     else []) ++ b.gen_moves_loop current_turn_mask fuel

/-- `gen_moves` (src/move_generation/impl.rs lines 471-494); the `Result`
wrapper is always `Ok`, and the driver unwraps it, so the list is returned
directly. -/
def Board.gen_moves (b : Board) : List Move :=
  let current_turn_mask := match b.turn with
    | .White => b.white
    | .Black => b.black
  (b.gen_moves_loop current_turn_mask 64).filter (fun m => m.toSq != 0)

/-! ## Game state, make/unmake, FEN parsing (src/game.rs) -/
inductive FenError where
  | InvalidFen (fen : List Char) (c : Char)
  | InvalidEnPassant (s : List Char)
  | Panic
  deriving DecidableEq, Repr

structure Game where
  board : Board
  turn : Color
  history : List Move
  halfmove_clock : Nat
  fullmove_number : Nat
  deriving DecidableEq, Repr

/-- The placement loop of `Game::new` (src/game.rs lines 121-164).
`Bitboard::from_square(file, rank)` is `1 << (rank * 8 + file)`. -/
def parse_placement : List Char → Board → Nat → Nat → List Char →
    Except FenError Board
  | [], b, _, _, _ => .ok b
  | c :: rest, b, rank, file, fen =>
    let square := (1 <<< (rank * 8 + file)) % U64LIMIT
    if c = 'P' then parse_placement rest (b.spawn_piece (Piece.new .White .Pawn square)) rank (file + 1) fen
    else if c = 'N' then parse_placement rest (b.spawn_piece (Piece.new .White .Knight square)) rank (file + 1) fen
    else if c = 'B' then parse_placement rest (b.spawn_piece (Piece.new .White .Bishop square)) rank (file + 1) fen
    else if c = 'R' then parse_placement rest (b.spawn_piece (Piece.new .White .Rook square)) rank (file + 1) fen
    else if c = 'Q' then parse_placement rest (b.spawn_piece (Piece.new .White .Queen square)) rank (file + 1) fen
    else if c = 'K' then parse_placement rest (b.spawn_piece (Piece.new .White .King square)) rank (file + 1) fen
    else if c = 'p' then parse_placement rest (b.spawn_piece (Piece.new .Black .Pawn square)) rank (file + 1) fen
    else if c = 'n' then parse_placement rest (b.spawn_piece (Piece.new .Black .Knight square)) rank (file + 1) fen
    else if c = 'b' then parse_placement rest (b.spawn_piece (Piece.new .Black .Bishop square)) rank (file + 1) fen
    else if c = 'r' then parse_placement rest (b.spawn_piece (Piece.new .Black .Rook square)) rank (file + 1) fen
    else if c = 'q' then parse_placement rest (b.spawn_piece (Piece.new .Black .Queen square)) rank (file + 1) fen
    else if c = 'k' then parse_placement rest (b.spawn_piece (Piece.new .Black .King square)) rank (file + 1) fen
    else if '1' ≤ c ∧ c ≤ '8' then
      parse_placement rest b rank (file + (c.toNat - 48)) fen
    else if c = '/' then parse_placement rest b (rank - 1) 0 fen
    else .error (.InvalidFen fen c)

/-- The castling-rights loop of `Game::new` (src/game.rs lines 176-186). -/
def parse_castling : List Char → Nat → Except FenError Nat
  | [], mask => .ok mask
  | c :: rest, mask =>
    if c = 'K' then parse_castling rest (set_castling_right mask WHITE_KINGSIDE)
    else if c = 'Q' then parse_castling rest (set_castling_right mask WHITE_QUEENSIDE)
    else if c = 'k' then parse_castling rest (set_castling_right mask BLACK_KINGSIDE)
    else if c = 'q' then parse_castling rest (set_castling_right mask BLACK_QUEENSIDE)
    else if c = '-' then parse_castling rest mask
    else .error .Panic

def STARTING_FEN : List Char :=
  ("rnbqkbnr/pppppppp/8/8/8/8/PPPPPPPP/RNBQKBNR w KQkq - 0 1").data

/-- `Game::new` (src/game.rs lines 107-209).  Panics of the source
(`assert_eq!` on the field count, unknown turn/castling characters) are
the `Panic` error.  Note that the parsed side to move is stored in
`Game.turn` only; `board.turn` keeps the `Board::DEFAULT` value (White),
exactly as in the source, which never assigns it.  The halfmove clock and
fullmove number are hardcoded 0 and 1 (source lines 204-205). -/
def Game.new (fen : List Char) : Except FenError Game :=
  let parts := fen.splitOn ' '
  if parts.length ≠ 6 then .error .Panic
  else
    match parse_placement (parts.getD 0 []) Board.DEFAULT 7 0 fen with
    | .error e => .error e
    | .ok board =>
      let turnPart := parts.getD 1 []
      if turnPart ≠ ['w'] ∧ turnPart ≠ ['b'] then .error .Panic
      else
        let turn : Color := if turnPart = ['w'] then .White else .Black
        match parse_castling (parts.getD 2 []) board.castling with
        | .error e => .error e
        | .ok castling =>
          let board := { board with castling := castling }
          let epPart := parts.getD 3 []
          let epParse : Except FenError (Option Nat) :=
            if epPart = ['-'] then .ok none
            else match from_algebraic epPart with
              | .ok bb => .ok (some bb)
              | .err s => .error (.InvalidEnPassant s)
              | .panic => .error .Panic
          match epParse with
          | .error e => .error e
          | .ok ep =>
            let board := { board with en_passant := ep }
            .ok { board := board, turn := turn, history := [],
                  halfmove_clock := 0, fullmove_number := 1 }

/-- `Game::make_move` (src/game.rs lines 530-536).  The `u16`/`u8`
counters wrap modulo their width (release profile). -/
def Game.make_move (g : Game) (mov : Move) : Game :=
  { board := g.board.move_piece mov
    turn := g.turn.opposite
    history := mov :: g.history
    fullmove_number := (g.fullmove_number + 1) % 65536
    halfmove_clock := (g.halfmove_clock + 1) % 256 }

/-- `Game::unmake_move` (src/game.rs lines 538-549): pop the history,
undo the board mutation, flip the turn, respawn the captured piece, and
decrement both counters (wrapping like the source's release profile). -/
def Game.unmake_move (g : Game) (mov : Move) : Game :=
  let board := g.board.unmove_piece mov
  let board := match mov.capture with
    | some captured_piece => board.spawn_piece captured_piece
    | none => board
  { board := board
    turn := g.turn.opposite
    history := g.history.tail
    fullmove_number := (g.fullmove_number + 65535) % 65536
    halfmove_clock := (g.halfmove_clock + 255) % 256 }

/-! ## The generator inside src/game.rs (lines 211-528)

`Game` carries its own pseudo-legal generator, an older copy of the
`move_generation` one: the quiet-push promotion test uses
`Bitboard::RANK_1 | Bitboard::RANK_8` (line 272), the king has no castling
branch and no castling-rights delta, and `is_check` takes no colour
argument (it checks the side that just moved).  Its
`__gen_sliding_moves_recursive` and `slide_until_blocked` (lines 211-247
and 389-416) repeat the `move_generation` bodies verbatim over
`self.board`, so they are shared here. -/
def Game.gen_moves_from_piece (g : Game) (origin_square : Nat) : List Move :=
  match g.board.get_piece origin_square with
  | none => []
  | some piece =>
    let current_turn_mask := match g.turn with
      | .White => g.board.white
      | .Black => g.board.black
    let opposite_color_mask := match g.turn with
      | .White => g.board.black
      | .Black => g.board.white
    match piece.kind with
    | .Pawn =>
      let toB := match g.turn with
        | .White => north origin_square
        | .Black => south origin_square
      let colors_mask := g.board.white ||| g.board.black
      let push_moves :=
        bif !(is_empty toB) && !(intersects toB colors_mask) then
          let new_move := Move.new origin_square toB piece
          -- src/game.rs line 272: the promotion test is RANK_1 | RANK_8
          let single :=
            bif intersects toB (RANK_1 ||| RANK_8) then new_move.with_promotions
            else [new_move]
          let double :=
            bif pawn_initial origin_square current_turn_mask then
              let new_to := match g.turn with
                | .White => north (north origin_square)
                | .Black => south (south origin_square)
              bif !(new_to == 0) && (new_to &&& colors_mask) == 0 then
                [(Move.new origin_square new_to piece).with_en_passant toB]
              else []
            else []
          single ++ double
        else []
      let capture_moves := (Direction.pawn_captures g.turn).flatMap (fun d =>
        let toB := shift origin_square d
        bif is_empty toB then []
        else bif intersects toB opposite_color_mask then
          let new_move := (Move.new origin_square toB piece).with_capture
            (unwrapPiece (g.board.get_piece toB))
          bif intersects toB PAWN_PROMOTION_MASK then new_move.with_promotions
          else [new_move]
        else match g.board.en_passant with
          | some en_passant_square =>
            bif toB == en_passant_square then
              [(Move.new origin_square toB piece).with_capture
                (g.board.get_en_passant_victim en_passant_square g.turn.opposite)]
            else []
          | none => [])
      push_moves ++ capture_moves
    | .Knight =>
      Direction.KNIGHT_MOVES.flatMap (fun knight_move =>
        let toB := shift origin_square knight_move
        bif !(is_empty toB) && !(intersects toB current_turn_mask) then
          bif intersects toB opposite_color_mask then
            [(Move.new origin_square toB piece).with_capture
              (unwrapPiece (g.board.get_piece toB))]
          else [Move.new origin_square toB piece]
        else [])
    | .Bishop =>
      Direction.DIAGONAL_MOVES.flatMap (fun d =>
        g.board.gen_sliding_moves piece origin_square d)
    | .Rook =>
      Direction.STRAIGHT_MOVES.flatMap (fun d =>
        g.board.gen_sliding_moves piece origin_square d)
    | .Queen =>
      Direction.SLIDING_MOVES.flatMap (fun d =>
        g.board.gen_sliding_moves piece origin_square d)
    | .King =>
      Direction.SLIDING_MOVES.flatMap (fun d =>
        let toB := shift origin_square d
        bif !(is_empty toB) && !(intersects toB current_turn_mask) then
          bif intersects toB opposite_color_mask then
            [(Move.new origin_square toB piece).with_capture
              (unwrapPiece (g.board.get_piece toB))]
          else [Move.new origin_square toB piece]
        else [])

/-- The `for i in 0..64` scan of `Game::gen_moves`. -/
def Game.gen_moves_loop (g : Game) (occupied current_turn_mask : Nat) : Nat → List Move
  | 0 => []
  | fuel + 1 =>
    let i := 63 - fuel
    let square := 1 <<< i
    (bif (occupied &&& square &&& current_turn_mask) != 0 then
      g.gen_moves_from_piece square
     else []) ++ g.gen_moves_loop occupied current_turn_mask fuel

/-- `Game::gen_moves` (src/game.rs lines 504-528). -/
def Game.gen_moves (g : Game) : List Move :=
  let occupied := g.board.occupied
  let current_turn_mask := match g.turn with
    | .White => g.board.white
    | .Black => g.board.black
  (g.gen_moves_loop occupied current_turn_mask 64).filter (fun m => m.toSq != 0)

/-- `Game::is_check` (src/game.rs lines 433-502): checks whether the side
that just moved (`!self.turn`) is in check; the sliding probes start from
`kings & color_mask`. -/
def Game.is_check (g : Game) : Bool :=
  let color := g.turn.opposite
  let king_position := (g.board.king_position.get color).getD 64
  let color_mask := match color with
    | .White => g.board.white
    | .Black => g.board.black
  let opposite_color_mask := match color with
    | .White => g.board.black
    | .Black => g.board.white
  bif (pawn_attacks_of (colorIndex color.opposite) king_position &&&
      g.board.pawns &&& opposite_color_mask) != 0 then
    true
  else bif (knight_attacks_of king_position &&&
      (g.board.knights &&& opposite_color_mask)) != 0 then
    true
  else bif Direction.STRAIGHT_MOVES.any (fun d =>
      match g.board.slide_until_blocked (g.board.kings &&& color_mask) d color 8 with
      | some p => match p.kind with
        | .Queen => true
        | .Rook => true
        | _ => false
      | none => false) then
    true
  else Direction.DIAGONAL_MOVES.any (fun d =>
      match g.board.slide_until_blocked (g.board.kings &&& color_mask) d color 8 with
      | some p => match p.kind with
        | .Queen => true
        | .Bishop => true
        | _ => false
      | none => false)

inductive MovegenError where
  | InvalidMove (s : List Char)
  | BitboardError (s : List Char)
  deriving DecidableEq, Repr

/-- Result of `Game::parse_move`; `panic` models the byte-slice panics of
`&move[0..2]` / `&move[2..4]` on short inputs. -/
inductive PMResult where
  | ok (m : Move)
  | err (e : MovegenError)
  | panic
  deriving DecidableEq, Repr

/-- `Game::parse_move` (src/game.rs lines 551-562): parse the two squares,
then return the first generated move with that source and destination. -/
def Game.parse_move (g : Game) (s : List Char) : PMResult :=
  if s.length < 2 then .panic
  else match from_algebraic (s.take 2) with
  | .err e => .err (.BitboardError e)
  | .panic => .panic
  | .ok fromBB =>
    if s.length < 4 then .panic
    else match from_algebraic ((s.drop 2).take 2) with
    | .err e => .err (.BitboardError e)
    | .panic => .panic
    | .ok toBB =>
      match g.gen_moves.find? (fun m => m.fromSq == fromBB && m.toSq == toBB) with
      | some m => .ok m
      | none => .err (.InvalidMove s)

/-! ## The perft driver (src/perft.rs lines 5-26)

The Rust driver mutates one `Game` with make/unmake; the embedding passes
the made state down instead.  The two agree: every generated quantity at a
node (the move list and the check test) is computed directly after the
`make_move` that produced that node, and `unmake_move` restores every
field that is ever read before the next `make_move` overwrites it (the
sole unrestored field, the en-passant target, is written by `move_piece`
before any later read). -/
def perft : Game → Nat → Nat
  | _, 0 => 1
  | g, depth + 1 =>
    let moves := g.board.gen_moves
    moves.foldl (fun all_nodes m =>
      let g2 := g.make_move m
      let nodes :=
        bif g2.board.is_check g2.board.turn.opposite then 0
        else perft g2 depth
      all_nodes + nodes) 0

/-! ## Concrete positions used by the claims -/
def fallback_game : Game :=
  { board := Board.DEFAULT, turn := .White, history := [],
    halfmove_clock := 0, fullmove_number := 1 }

def start_game : Game :=
  match Game.new STARTING_FEN with
  | .ok g => g
  | .error _ => fallback_game

/-- Play one CLI move string: `parse_move` then `make_move`, the loop of
`main` (src/main.rs lines 59-64). -/
def game_after (g : Game) (s : List Char) : Game :=
  match g.parse_move s with
  | .ok m => g.make_move m
  | _ => g

/-- The C5 position `8/P7/8/8/8/8/8/k6K w - - 0 1`: a White pawn on a7. -/
def c5_game : Game :=
  match Game.new ("8/P7/8/8/8/8/8/k6K w - - 0 1").data with
  | .ok g => g
  | .error _ => fallback_game

/-- The C3 position `r3k3/8/8/8/8/8/8/R3K3 b Q - 0 1`: only White's
queenside right is held.  `Game::new` never copies the FEN side to move
into `Board.turn`, so it is set here to the Black the FEN names. -/
def c3_board : Board :=
  { (match Game.new ("r3k3/8/8/8/8/8/8/R3K3 b Q - 0 1").data with
     | .ok g => g
     | .error _ => fallback_game).board with turn := .Black }

/-- The C6 position `4r3/8/8/8/8/8/8/4K2R w K - 0 1`: the White king on e1
stands in check from the e8 rook, f1 and g1 are empty and unattacked. -/
def c6_game : Game :=
  match Game.new ("4r3/8/8/8/8/8/8/4K2R w K - 0 1").data with
  | .ok g => g
  | .error _ => fallback_game

/-- White's short-castle move record e1→g1 with the h1→f1 rook slide, as
the generator emits it. -/
def c6_castle : Move :=
  ((Move.new (1 <<< 4) (1 <<< 6) (Piece.new .White .King (1 <<< 4))).with_castling_rights_loss
    WHITE_BOTH).with_castle_move (1 <<< 7, 1 <<< 5)

/-- The C7 position `4k3/8/8/8/8/8/r7/4K3 w - - 0 1`: the king move e1e2
is pseudo-legal but walks into the a2 rook. -/
def c7_game : Game :=
  match Game.new ("4k3/8/8/8/8/8/r7/4K3 w - - 0 1").data with
  | .ok g => g
  | .error _ => fallback_game

/-- The king move e1→e2 as `Game::gen_moves` emits it. -/
def c7_move : Move := Move.new (1 <<< 4) (1 <<< 12) (Piece.new .White .King (1 <<< 4))

/-- The knight move g1→f3 as the generators emit it. -/
def c2_nf3 : Move := Move.new (1 <<< 6) (1 <<< 21) (Piece.new .White .Knight (1 <<< 6))

/-- The reachable state after 1. e2e4 d7d5: the en-passant target is d6. -/
def c2_game_ep : Game :=
  game_after (game_after start_game ("e2e4").data) ("d7d5").data

/-- The reachable state after 1. e2e3 d7d6 2. e3e4 d6d5: the same piece
placement with no en-passant target. -/
def c2_game_noep : Game :=
  game_after (game_after (game_after (game_after start_game
    ("e2e3").data) ("d7d6").data) ("e3e4").data) ("d6d5").data

/-- The double push e2→e4 as `Game::gen_moves` emits it from the start
position (it creates the e3 en-passant target). -/
def c7_e2e4 : Move :=
  (Move.new (1 <<< 12) (1 <<< 28) (Piece.new .White .Pawn (1 <<< 12))).with_en_passant (1 <<< 20)

/-- The bitboard of a piece kind (proof-side accessor). -/
def kindBoard (bd : Board) : PieceKind → Nat
  | .Pawn => bd.pawns
  | .Knight => bd.knights
  | .Bishop => bd.bishops
  | .Rook => bd.rooks
  | .Queen => bd.queens
  | .King => bd.kings

/-- The occupancy bitboard of a colour (proof-side accessor). -/
def colorBoard (bd : Board) : Color → Nat
  | .White => bd.white
  | .Black => bd.black

/-- The square-coherence conditions under which one make/unmake round trip
is exact apart from the en-passant target: the move has one of the five
shapes the generators emit (quiet, capture, quiet promotion, capture
promotion, castle) and its squares are single bits consistent with the
board `bd`. -/
def shape_ok (bd : Board) (w : Piece) (fs ts : Nat) :
    Option Piece → Option PieceKind → Option (Nat × Nat) → Prop
  | none, none, none =>
    ∃ a b, fs = 2 ^ a ∧ ts = 2 ^ b ∧ a < 64 ∧ b < 64 ∧ a ≠ b ∧
      (kindBoard bd w.kind).testBit a = true ∧
      (kindBoard bd w.kind).testBit b = false ∧
      (colorBoard bd w.color).testBit a = true ∧
      (colorBoard bd w.color).testBit b = false ∧
      (w.kind = .King → bd.king_position.get w.color = some (idx (2 ^ a)))
  | some cp, none, none =>
    ∃ a b d pc pk, fs = 2 ^ a ∧ ts = 2 ^ b ∧ cp = Piece.mk pc pk (2 ^ d) ∧
      a < 64 ∧ b < 64 ∧ d < 64 ∧ a ≠ b ∧ d ≠ a ∧
      pc = w.color.opposite ∧ pk ≠ .King ∧
      (kindBoard bd w.kind).testBit a = true ∧
      (colorBoard bd w.color).testBit a = true ∧
      (∀ k2, (kindBoard bd k2).testBit b = (decide (k2 = pk) && decide (d = b))) ∧
      (∀ c2, (colorBoard bd c2).testBit b = (decide (c2 = pc) && decide (d = b))) ∧
      (kindBoard bd pk).testBit d = true ∧
      (colorBoard bd pc).testBit d = true ∧
      (w.kind = .King → bd.king_position.get w.color = some (idx (2 ^ a)))
  | none, some pk2, none =>
    w.kind = .Pawn ∧ pk2 ≠ .Pawn ∧ pk2 ≠ .King ∧
    ∃ a b, fs = 2 ^ a ∧ ts = 2 ^ b ∧ a < 64 ∧ b < 64 ∧ a ≠ b ∧
      bd.pawns.testBit a = true ∧
      (∀ k2, (kindBoard bd k2).testBit b = false) ∧
      (colorBoard bd w.color).testBit a = true ∧
      (colorBoard bd w.color).testBit b = false
  | some cp, some pk2, none =>
    w.kind = .Pawn ∧ pk2 ≠ .Pawn ∧ pk2 ≠ .King ∧
    ∃ a b pc pk, fs = 2 ^ a ∧ ts = 2 ^ b ∧ cp = Piece.mk pc pk (2 ^ b) ∧
      a < 64 ∧ b < 64 ∧ a ≠ b ∧
      pc = w.color.opposite ∧ pk ≠ .King ∧ pk ≠ .Pawn ∧
      bd.pawns.testBit a = true ∧
      (∀ k2, (kindBoard bd k2).testBit b = decide (k2 = pk)) ∧
      (∀ c2, (colorBoard bd c2).testBit b = decide (c2 = pc)) ∧
      (colorBoard bd w.color).testBit a = true
  | none, none, some rm =>
    w.kind = .King ∧
    ∃ a b e h2, fs = 2 ^ a ∧ ts = 2 ^ b ∧ rm = (2 ^ e, 2 ^ h2) ∧
      a < 64 ∧ b < 64 ∧ e < 64 ∧ h2 < 64 ∧
      a ≠ b ∧ e ≠ a ∧ e ≠ b ∧ h2 ≠ a ∧ h2 ≠ b ∧ e ≠ h2 ∧
      bd.kings.testBit a = true ∧ bd.kings.testBit b = false ∧
      bd.rooks.testBit e = true ∧ bd.rooks.testBit h2 = false ∧
      (colorBoard bd w.color).testBit a = true ∧
      (colorBoard bd w.color).testBit b = false ∧
      (colorBoard bd w.color).testBit e = true ∧
      (colorBoard bd w.color).testBit h2 = false ∧
      bd.king_position.get w.color = some (idx (2 ^ a))
  | _, _, _ => False

/-- A well-formed round-trip instance: all eight bitboards are 64-bit
values and the move is square-coherent with the board in the sense of
`shape_ok`.  Moves the generators emit from reachable positions satisfy
this. -/
def RoundTripOk (bd : Board) (m : Move) : Prop :=
  (bd.pawns < 2 ^ 64 ∧ bd.knights < 2 ^ 64 ∧ bd.bishops < 2 ^ 64 ∧
   bd.rooks < 2 ^ 64 ∧ bd.queens < 2 ^ 64 ∧ bd.kings < 2 ^ 64 ∧
   bd.white < 2 ^ 64 ∧ bd.black < 2 ^ 64) ∧
  shape_ok bd m.what m.fromSq m.toSq m.capture m.promotion m.castle_move

end Chess

namespace Legacy

/-! ## The older board snapshot (src/board.rs)

`src/board.rs` is an earlier revision with its own `Bitboard` and a
two-field `Piece` (src/piece.rs lines 19-23); claim C10 is about its
`get_piece` (lines 286-304). -/
structure Piece where
  color : Chess.Color
  kind : Chess.PieceKind
  deriving DecidableEq, Repr

def Piece.new (color : Chess.Color) (kind : Chess.PieceKind) : Piece :=
  ⟨color, kind⟩

structure Board where
  pawns : Nat
  knights : Nat
  bishops : Nat
  rooks : Nat
  queens : Nat
  kings : Nat
  white : Nat
  black : Nat
  en_passant : Option Nat
  castling : Nat
  halfmove_clock : Nat
  fullmove_number : Nat
  side_to_move : Chess.Color
  deriving DecidableEq, Repr

/-- `Board::get_piece`, src/board.rs lines 286-304: every kind-bitboard hit
is reported as White; the tail case consults only the black occupancy and
always reports a Black pawn. -/
def Board.get_piece (b : Board) (square : Nat) : Option Piece :=
  if b.pawns &&& square ≠ 0 then some (Piece.new .White .Pawn)
  else if b.knights &&& square ≠ 0 then some (Piece.new .White .Knight)
  else if b.bishops &&& square ≠ 0 then some (Piece.new .White .Bishop)
  else if b.rooks &&& square ≠ 0 then some (Piece.new .White .Rook)
  else if b.queens &&& square ≠ 0 then some (Piece.new .White .Queen)
  else if b.kings &&& square ≠ 0 then some (Piece.new .White .King)
  else if b.black &&& square ≠ 0 then some (Piece.new .Black .Pawn)
  else none

/-- A board whose black occupancy holds the e2 pawn bit and whose black
b2-square is occupied by nothing but the occupancy mask. -/
def sample_board : Board :=
  { pawns := 0x10, knights := 0, bishops := 0, rooks := 0, queens := 0,
    kings := 0, white := 0, black := 0x10 ||| 0x200, en_passant := none,
    castling := 0, halfmove_clock := 0, fullmove_number := 1,
    side_to_move := .White }

end Legacy

namespace Chess

set_option maxRecDepth 100000

/-! ## Generic mask-then-shift lemmas

`(x &&& K) <<< s` (mod `2^64`) has no bit inside `M` as soon as no bit of
`K`, displaced by `s`, lands inside `M`; similarly for right shifts.  The
finitely many bit positions are discharged by `decide`. -/
theorem shl_mask_disjoint (x K M s : Nat)
    (h : ∀ i < 64, (Nat.testBit K i && Nat.testBit M (i + s)) = false) :
    (((x &&& K) <<< s) % U64LIMIT) &&& M = 0 := by
  rw [show U64LIMIT = 2 ^ 64 from by norm_num [U64LIMIT]]
  apply Nat.eq_of_testBit_eq
  intro j
  simp only [Nat.testBit_and, Nat.zero_testBit, Nat.testBit_mod_two_pow,
    Nat.testBit_shiftLeft]
  rcases Nat.lt_or_ge j 64 with hj | hj
  · rcases Nat.lt_or_ge j s with hs | hs
    · simp [Nat.not_le.mpr hs]
    · have hij : j - s < 64 := Nat.lt_of_le_of_lt (Nat.sub_le _ _) hj
      have := h (j - s) hij
      have hjs : j - s + s = j := Nat.sub_add_cancel hs
      rw [hjs] at this
      rcases Bool.and_eq_false_iff.mp this with hK | hM
      · simp [hK]
      · simp [hM]
  · simp [Nat.not_lt.mpr hj]

theorem shr_mask_disjoint (x K M s : Nat) (hM : M < 2 ^ 64)
    (h : ∀ i < 64, (Nat.testBit K (i + s) && Nat.testBit M i) = false) :
    ((x &&& K) >>> s) &&& M = 0 := by
  apply Nat.eq_of_testBit_eq
  intro j
  simp only [Nat.testBit_and, Nat.zero_testBit, Nat.testBit_shiftRight]
  rcases Nat.lt_or_ge j 64 with hj | hj
  · have := h j hj
    rw [Nat.add_comm j s] at this
    rcases Bool.and_eq_false_iff.mp this with hK | hMj
    · simp [hK]
    · simp [hMj]
  · have : Nat.testBit M j = false :=
      Nat.testBit_lt_two_pow (Nat.lt_of_lt_of_le hM (Nat.pow_le_pow_right (by decide) hj))
    simp [this]

theorem pawn_attacks_of_eq_table :
    ∀ j < 2, ∀ i < 64,
      ((generate_pawn_lookup.getD j []).getD i 0) = pawn_attacks_of j i := by
  decide

theorem knight_attacks_of_eq_table :
    ∀ i < 64, (generate_knight_lookup.getD i 0) = knight_attacks_of i := by
  decide

/-- C9: the masked directional shifts never wrap across a file boundary:
`east x &&& FILE_A = 0`, `west x &&& FILE_H = 0`, the four diagonal shifts
avoid the same two files, and each of the eight knight shifts produces no
bit on the file(s) it would have to wrap through. -/
theorem c9_shift_no_file_wrap (x : Nat) :
    east x &&& FILE_A = 0 ∧ west x &&& FILE_H = 0 ∧
    north_east x &&& FILE_A = 0 ∧ north_west x &&& FILE_H = 0 ∧
    south_east x &&& FILE_A = 0 ∧ south_west x &&& FILE_H = 0 ∧
    no_no_ea x &&& FILE_A = 0 ∧ no_ea_ea x &&& (FILE_A ||| FILE_B) = 0 ∧
    so_ea_ea x &&& (FILE_A ||| FILE_B) = 0 ∧ so_so_ea x &&& FILE_A = 0 ∧
    no_no_we x &&& FILE_H = 0 ∧ no_we_we x &&& (FILE_G ||| FILE_H) = 0 ∧
    so_we_we x &&& (FILE_G ||| FILE_H) = 0 ∧ so_so_we x &&& FILE_H = 0 := by
  unfold east west north_east north_west south_east south_west
    no_no_ea no_ea_ea so_ea_ea so_so_ea no_no_we no_we_we so_we_we so_so_we
  refine ⟨shl_mask_disjoint x _ _ _ (by decide), shr_mask_disjoint x _ _ _ (by decide) (by decide),
    shl_mask_disjoint x _ _ _ (by decide), shl_mask_disjoint x _ _ _ (by decide),
    shr_mask_disjoint x _ _ _ (by decide) (by decide), shr_mask_disjoint x _ _ _ (by decide) (by decide),
    shl_mask_disjoint x _ _ _ (by decide), shl_mask_disjoint x _ _ _ (by decide),
    shr_mask_disjoint x _ _ _ (by decide) (by decide), shr_mask_disjoint x _ _ _ (by decide) (by decide),
    shl_mask_disjoint x _ _ _ (by decide), shl_mask_disjoint x _ _ _ (by decide),
    shr_mask_disjoint x _ _ _ (by decide) (by decide), shr_mask_disjoint x _ _ _ (by decide) (by decide)⟩

/-- C4: the claim says `pawn_attacks_lookup[c][s]` holds the squares a pawn
of colour `c` on `s` attacks (White: NE and NW).  The generated table holds
the opposite rows: for White (row 0) and square a2 (index 8) the source
computes `south_east | south_west = 0x2` (the b1 bit) where the claim, the
spec (§4.2) and the repository's own unit test in `src/main.rs` require
`north_east | north_west = 0x20000` (the b3 bit). -/
theorem c4_pawn_lookup_row_swapped :
    ((generate_pawn_lookup.getD 0 []).getD 8 0) = 0x2 ∧
    spec_pawn_attacks 0 8 = 0x20000 ∧
    ((generate_pawn_lookup.getD 0 []).getD 8 0) ≠ spec_pawn_attacks 0 8 := by
  decide

/-- C8 (amended): `from_algebraic` validates only the length.  Valid square
names a1..h8 give the expected single-bit board, and the
`InvalidSingleSquare` error is produced exactly for inputs whose length is
not 2; a length-2 input with out-of-range characters is never rejected. -/
theorem c8_from_algebraic_length_only :
    (∀ f ∈ file_chars, ∀ r ∈ rank_chars,
      from_algebraic [f, r] =
        .ok (1 <<< ((r.toNat - 49) * 8 + (f.toNat - 97)))) ∧
    (∀ s : List Char, (∃ e, from_algebraic s = .err e) ↔ s.length ≠ 2) := by
  refine ⟨by decide, ?_⟩
  intro s
  constructor
  · rintro ⟨e, he⟩
    by_cases hl : s.length ≠ 2
    · exact hl
    · unfold from_algebraic at he
      rw [if_neg hl] at he
      split at he
      · exact absurd he (by simp)
      · split at he
        · exact absurd he (by simp)
        · exact absurd he (by simp)
  · intro hl
    exact ⟨s, by unfold from_algebraic; rw [if_pos hl]⟩

theorem c8_from_algebraic_length_only_witness :
    from_algebraic ['e', '4'] = .ok (1 <<< (('4'.toNat - 49) * 8 + ('e'.toNat - 97))) ∧
    (∃ e, from_algebraic ['e'] = .err e) :=
  ⟨c8_from_algebraic_length_only.1 'e' (by decide) '4' (by decide),
   (c8_from_algebraic_length_only.2 ['e']).mpr (by decide)⟩

/-- C8 counterexample: "i1" has length 2 but 'i' is outside a..h; the claim
says this must fail with `InvalidSingleSquare`, yet the source accepts it
and returns the (arbitrary) a2 bit `0x100`. -/
theorem c8_out_of_range_accepted :
    from_algebraic ['i', '1'] = .ok 0x100 ∧ 'i' ∉ file_chars := by
  decide

/-- The perft driver reproduces the published counts at depths 1 and 2
(mechanical evidence for claim C1; the depth-3 and depth-4 evaluations,
8,902 and 197,281 leaves, exceed what kernel reduction completes here). -/
theorem perft_startpos_shallow :
    perft start_game 1 = 20 ∧ perft start_game 2 = 400 :=
  ⟨by decide!, by decide!⟩

/-- C5: the quiet-push promotion test of src/game.rs line 272 uses
`RANK_1 | RANK_8`, but `RANKS[7]` holds the rank-7 mask (the table in
src/bitboard/impl.rs duplicates the rank-4 entry), so the push a7→a8 in
`8/P7/8/8/8/8/8/k6K w - - 0 1` is emitted as a single move without any
promotion, not as the four promotions the claim requires. -/
theorem c5_promotion_mask_is_rank7 :
    RANK_8 = 0x00FF000000000000 ∧
    ((1 <<< 56) &&& (RANK_1 ||| RANK_8)) = 0 ∧
    (c5_game.gen_moves_from_piece (1 <<< 48)).map (fun m => (m.toSq, m.promotion)) =
      [((1 <<< 56 : Nat), (none : Option PieceKind))] := by
  decide

/-- C3: in `r3k3/8/8/8/8/8/8/R3K3` with castling rights `Q` only, the
Black-queenside bit is clear, yet the generator emits the Black queenside
castle e8→c8 because src/move_generation/impl.rs lines 313-315 test
`WHITE_QUEENSIDE` in the Black branch. -/
theorem c3_black_long_castle_without_right :
    get_castling_right c3_board.castling BLACK_QUEENSIDE = false ∧
    (c3_board.gen_moves_from_piece (1 <<< 60)).any
      (fun m => m.castle_move.isSome && (m.toSq == 1 <<< 58)) = true := by
  decide

/-- C6: in `4r3/8/8/8/8/8/8/4K2R w K - 0 1` the king's origin e1 is
attacked by the e8 rook, yet the short castle e1→g1 is emitted (the
generator checks only the f1 transit square), and the make-then-check
filter does not reject it either. -/
theorem c6_castle_emitted_from_attacked_origin :
    c6_castle ∈ c6_game.board.gen_moves_from_piece (1 <<< 4) ∧
    c6_game.board.is_attacked (1 <<< 4) 4 .White = true ∧
    (c6_game.board.move_piece c6_castle).is_check .White = false := by
  decide

/-- C7 (amended): `parse_move` matches the move string against the
pseudo-legal `gen_moves` list: an `Ok` result is a generated move whose
from/to squares are the parsed first and second square names, and when the
two squares parse but no generated move matches, the result is
`InvalidMove`.  No legality filtering happens here. -/
theorem c7_parse_move_matches_pseudo_legal :
    (∀ (g : Game) (s : List Char) (m : Move), g.parse_move s = .ok m →
      m ∈ g.gen_moves ∧
      from_algebraic (s.take 2) = .ok m.fromSq ∧
      from_algebraic ((s.drop 2).take 2) = .ok m.toSq) ∧
    (∀ (g : Game) (s : List Char) (f t : Nat),
      from_algebraic (s.take 2) = .ok f →
      from_algebraic ((s.drop 2).take 2) = .ok t →
      4 ≤ s.length →
      g.gen_moves.find? (fun m => m.fromSq == f && m.toSq == t) = none →
      g.parse_move s = .err (.InvalidMove s)) := by
  constructor
  · intro g s m h
    unfold Game.parse_move at h
    split at h
    · exact absurd h (by simp)
    · split at h
      · exact absurd h (by simp)
      · exact absurd h (by simp)
      · split at h
        · exact absurd h (by simp)
        · split at h
          · exact absurd h (by simp)
          · exact absurd h (by simp)
          · split at h
            · rename_i m2 hfind
              injection h with h
              subst h
              have hmem := List.mem_of_find?_eq_some hfind
              have hpred := List.find?_some hfind
              simp only [Bool.and_eq_true, beq_iff_eq] at hpred
              refine ⟨hmem, ?_, ?_⟩
              · rw [hpred.1]; assumption
              · rw [hpred.2]; assumption
            · exact absurd h (by simp)
  · intro g s f t hf ht hlen hfind
    unfold Game.parse_move
    rw [if_neg (show ¬ s.length < 2 by omega), hf]
    dsimp only
    rw [if_neg (show ¬ s.length < 4 by omega), ht]
    dsimp only
    rw [hfind]

theorem c7_parse_move_matches_pseudo_legal_witness :
    (c7_e2e4 ∈ start_game.gen_moves ∧
      from_algebraic ((("e2e4").data).take 2) = .ok c7_e2e4.fromSq ∧
      from_algebraic (((("e2e4").data).drop 2).take 2) = .ok c7_e2e4.toSq) ∧
    start_game.parse_move ("e2e5").data = .err (.InvalidMove ("e2e5").data) :=
  ⟨c7_parse_move_matches_pseudo_legal.1 start_game ("e2e4").data c7_e2e4 (by decide),
   c7_parse_move_matches_pseudo_legal.2 start_game ("e2e5").data (1 <<< 12) (1 <<< 36)
     (by decide) (by decide) (by decide) (by decide)⟩

/-- C7 counterexample: in `4k3/8/8/8/8/8/r7/4K3 w - - 0 1` the string
"e1e2" parses to the king move e1→e2, which `parse_move` returns although
it leaves the mover's own king attacked (the a2 rook gives check after the
move), so the claim that only legal moves are returned is false. -/
theorem c7_parse_move_returns_illegal_move :
    c7_game.parse_move ("e1e2").data = .ok c7_move ∧
    (c7_game.make_move c7_move).is_check = true := by
  decide

/-- C2 counterexample: in the reachable state after 1. e2e4 d7d5 (the
en-passant target is d6) the legal knight move g1→f3 passes the perft
legality filter, yet make followed by unmake does not restore the state:
the en-passant target is lost. -/
theorem c2_make_unmake_loses_en_passant :
    c2_game_ep.board.en_passant = some (1 <<< 43) ∧
    c2_nf3 ∈ c2_game_ep.board.gen_moves ∧
    (c2_game_ep.make_move c2_nf3).board.is_check
      ((c2_game_ep.make_move c2_nf3).board.turn.opposite) = false ∧
    (c2_game_ep.make_move c2_nf3).unmake_move c2_nf3 ≠ c2_game_ep := by
  decide

/-- No choice of `Board::unmove_piece` can repair claim C2: the reachable
states after 1. e2e4 d7d5 and after 1. e2e3 d7d6 2. e3e4 d6d5 differ (only)
in the en-passant target, but `move_piece` maps them to the same board, so
no function of the resulting board and the move restores both. -/
theorem c2_no_unmove_function_restores_en_passant :
    c2_game_ep.board ≠ c2_game_noep.board ∧
    c2_game_ep.board.move_piece c2_nf3 = c2_game_noep.board.move_piece c2_nf3 ∧
    ∀ u : Board → Move → Board,
      ¬ (u (c2_game_ep.board.move_piece c2_nf3) c2_nf3 = c2_game_ep.board ∧
         u (c2_game_noep.board.move_piece c2_nf3) c2_nf3 = c2_game_noep.board) := by
  have hne : c2_game_ep.board ≠ c2_game_noep.board := by decide
  have heq : c2_game_ep.board.move_piece c2_nf3 = c2_game_noep.board.move_piece c2_nf3 := by
    decide
  refine ⟨hne, heq, fun u hu => hne ?_⟩
  exact hu.1.symm.trans ((congrArg (fun z => u z c2_nf3) heq).trans hu.2)

/-! ## Single-bit algebra for the make/unmake round trip -/
theorem xor_xor_cancel (x c : Nat) : (x ^^^ c) ^^^ c = x := by
  rw [Nat.xor_assoc, Nat.xor_self, Nat.xor_zero]

theorem opposite_opposite (c : Color) : c.opposite.opposite = c := by
  cases c <;> rfl

theorem opposite_white : Color.opposite .White = .Black := rfl

theorem opposite_black : Color.opposite .Black = .White := rfl

theorem testBit_U64MAX (i : Nat) : (U64MAX).testBit i = decide (i < 64) := by
  rw [show U64MAX = 2 ^ 64 - 1 from by norm_num [U64MAX]]
  exact Nat.testBit_two_pow_sub_one 64 i

theorem testBit_high {X i : Nat} (hX : X < 2 ^ 64) (hi : 64 ≤ i) :
    X.testBit i = false :=
  Nat.testBit_lt_two_pow
    (Nat.lt_of_lt_of_le hX (Nat.pow_le_pow_right (by decide) hi))

/-- Undoing `move_bit from to` with `move_bit to from` restores the board
when the from-bit was present and the to-bit absent. -/
theorem move_bit_roundtrip (X a b : Nat) (hab : a ≠ b)
    (hXa : X.testBit a = true) (hXb : X.testBit b = false) :
    move_bit (move_bit X (2 ^ a) (2 ^ b)) (2 ^ b) (2 ^ a) = X := by
  apply Nat.eq_of_testBit_eq
  intro i
  simp only [move_bit, Nat.testBit_or, Nat.testBit_xor, Nat.testBit_two_pow]
  by_cases hia : a = i <;> by_cases hib : b = i <;>
    simp_all [Bool.xor_false, Bool.xor_true]

/-- Re-setting a cleared bit restores the board when the bit was present. -/
theorem clear_bit_spawn (X d : Nat) (hX : X < 2 ^ 64) (hd : d < 64)
    (hXd : X.testBit d = true) :
    (clear_bit X (2 ^ d)) ||| 2 ^ d = X := by
  apply Nat.eq_of_testBit_eq
  intro i
  simp only [clear_bit, Nat.testBit_or, Nat.testBit_and, Nat.testBit_xor,
    Nat.testBit_two_pow, testBit_U64MAX]
  by_cases hi : i < 64
  · by_cases hid : d = i <;> simp_all [Bool.xor_false, Bool.xor_true]
  · have := testBit_high hX (Nat.le_of_not_lt hi)
    have : ¬ (d = i) := by omega
    simp_all

/-- Clearing a freshly set bit restores the board when the bit was absent. -/
theorem spawn_clear_bit (X d : Nat) (hX : X < 2 ^ 64) (hd : d < 64)
    (hXd : X.testBit d = false) :
    clear_bit (X ||| 2 ^ d) (2 ^ d) = X := by
  apply Nat.eq_of_testBit_eq
  intro i
  simp only [clear_bit, Nat.testBit_or, Nat.testBit_and, Nat.testBit_xor,
    Nat.testBit_two_pow, testBit_U64MAX]
  by_cases hi : i < 64
  · by_cases hid : d = i <;> simp_all [Bool.xor_false, Bool.xor_true]
  · have := testBit_high hX (Nat.le_of_not_lt hi)
    have : ¬ (d = i) := by omega
    simp_all

theorem testBit_clear_ne {X : Nat} (d : Nat) {i : Nat} (hi : i < 64) (hne : d ≠ i) :
    (clear_bit X (2 ^ d)).testBit i = X.testBit i := by
  simp [clear_bit, Nat.testBit_and, Nat.testBit_xor, Nat.testBit_two_pow,
    testBit_U64MAX, hne, hi]

theorem testBit_clear_self (X d : Nat) (hd : d < 64) :
    (clear_bit X (2 ^ d)).testBit d = false := by
  simp [clear_bit, Nat.testBit_and, Nat.testBit_xor, Nat.testBit_two_pow,
    testBit_U64MAX, hd]

theorem testBit_or_ne {X : Nat} (d : Nat) {i : Nat} (hne : d ≠ i) :
    (X ||| 2 ^ d).testBit i = X.testBit i := by
  simp [Nat.testBit_or, Nat.testBit_two_pow, hne]

theorem testBit_move_ne {X : Nat} (a b : Nat) {i : Nat} (hna : a ≠ i) (hnb : b ≠ i) :
    (move_bit X (2 ^ a) (2 ^ b)).testBit i = X.testBit i := by
  simp [move_bit, Nat.testBit_or, Nat.testBit_xor, Nat.testBit_two_pow, hna, hnb]

theorem clear_bit_lt (X y : Nat) (hX : X < 2 ^ 64) : clear_bit X y < 2 ^ 64 :=
  Nat.lt_of_le_of_lt (Nat.and_le_left) hX

theorem or_pow_lt {X : Nat} (d : Nat) (hX : X < 2 ^ 64) (hd : d < 64) :
    X ||| 2 ^ d < 2 ^ 64 :=
  Nat.or_lt_two_pow hX (Nat.pow_lt_pow_right (by decide) hd)

theorem move_bit_lt {X : Nat} (a b : Nat) (hX : X < 2 ^ 64) (ha : a < 64)
    (hb : b < 64) : move_bit X (2 ^ a) (2 ^ b) < 2 ^ 64 :=
  Nat.or_lt_two_pow
    (Nat.xor_lt_two_pow hX (Nat.pow_lt_pow_right (by decide) ha))
    (Nat.pow_lt_pow_right (by decide) hb)

theorem OnePerColor.set_set {α : Type} (o : OnePerColor α) (c : Color) (u v : α) :
    (o.set c u).set c v = o.set c v := by
  cases c <;> rfl

theorem OnePerColor.set_self {α : Type} (o : OnePerColor α) (c : Color) (v : α)
    (h : o.get c = v) : o.set c v = o := by
  cases c <;> cases o <;> simp_all [OnePerColor.get, OnePerColor.set]

/-- Make/unmake round trip for a quiet move (no capture, promotion or
castle): every board component except the en-passant target is restored. -/
theorem unmove_move_quiet (bd : Board) (c : Color) (k : PieceKind)
    (pos : Nat) (a b : Nat) (epf : Option Nat) (cast : Nat)
    (ha : a < 64) (hb : b < 64) (hab : a ≠ b)
    (hKa : (kindBoard bd k).testBit a = true)
    (hKb : (kindBoard bd k).testBit b = false)
    (hCa : (colorBoard bd c).testBit a = true)
    (hCb : (colorBoard bd c).testBit b = false)
    (hking : k = .King → bd.king_position.get c = some (idx (2 ^ a))) :
    (bd.move_piece
      { what := ⟨c, k, pos⟩, fromSq := 2 ^ a, toSq := 2 ^ b, capture := none,
        promotion := none, en_passant := epf, castling := cast,
        castle_move := none }).unmove_piece
      { what := ⟨c, k, pos⟩, fromSq := 2 ^ a, toSq := 2 ^ b, capture := none,
        promotion := none, en_passant := epf, castling := cast,
        castle_move := none } =
    { bd with en_passant := none } := by
  cases k <;> cases c <;>
    (simp only [Board.move_piece, Board.unmove_piece, kindBoard, colorBoard,
      OnePerColor.set_set] at * <;>
     simp_all [move_bit_roundtrip _ a b hab, xor_xor_cancel, opposite_opposite]) <;>
    exact OnePerColor.set_self _ _ _ hking

set_option maxHeartbeats 4000000 in
/-- Make/unmake round trip for a capture (ordinary, `d = b`, or
en-passant-style, `d ∉ {a, b}`): after the caller respawns the captured
piece, every board component except the en-passant target is restored. -/
theorem unmove_move_capture (bd : Board) (c : Color) (k : PieceKind)
    (pos pos2 : Nat) (a b d : Nat) (pc : Color) (pk : PieceKind)
    (epf : Option Nat) (cast : Nat)
    (ha : a < 64) (hb : b < 64) (hd : d < 64) (hab : a ≠ b) (hda : d ≠ a)
    (hpc : pc = c.opposite) (hpkK : pk ≠ .King)
    (hKa : (kindBoard bd k).testBit a = true)
    (hCa : (colorBoard bd c).testBit a = true)
    (hkindb : ∀ k2, (kindBoard bd k2).testBit b = (decide (k2 = pk) && decide (d = b)))
    (hcolb : ∀ c2, (colorBoard bd c2).testBit b = (decide (c2 = pc) && decide (d = b)))
    (hpkd : (kindBoard bd pk).testBit d = true)
    (hpcd : (colorBoard bd pc).testBit d = true)
    (hP : bd.pawns < 2 ^ 64) (hN : bd.knights < 2 ^ 64) (hB : bd.bishops < 2 ^ 64)
    (hR : bd.rooks < 2 ^ 64) (hQ : bd.queens < 2 ^ 64) (hK : bd.kings < 2 ^ 64)
    (hW : bd.white < 2 ^ 64) (hBl : bd.black < 2 ^ 64)
    (hking : k = .King → bd.king_position.get c = some (idx (2 ^ a))) :
    ((bd.move_piece
      { what := ⟨c, k, pos⟩, fromSq := 2 ^ a, toSq := 2 ^ b,
        capture := some ⟨pc, pk, 2 ^ d⟩, promotion := none, en_passant := epf,
        castling := cast, castle_move := none }).unmove_piece
      { what := ⟨c, k, pos2⟩, fromSq := 2 ^ a, toSq := 2 ^ b,
        capture := some ⟨pc, pk, 2 ^ d⟩, promotion := none, en_passant := epf,
        castling := cast, castle_move := none }).spawn_piece ⟨pc, pk, 2 ^ d⟩ =
    { bd with en_passant := none } := by
  subst hpc
  have hkP := hkindb .Pawn
  have hkN := hkindb .Knight
  have hkB := hkindb .Bishop
  have hkR := hkindb .Rook
  have hkQ := hkindb .Queen
  have hkK := hkindb .King
  have hcW := hcolb .White
  have hcB := hcolb .Black
  clear hkindb hcolb
  by_cases hdb : d = b <;> cases k <;> cases c <;> cases pk <;>
    simp_all [Board.move_piece, Board.unmove_piece, Board.spawn_piece,
      Board.clear_piece, kindBoard, colorBoard, opposite_white, opposite_black,
      OnePerColor.set_set, move_bit_roundtrip, clear_bit_spawn, spawn_clear_bit,
      testBit_clear_ne, testBit_clear_self, clear_bit_lt, xor_xor_cancel,
      opposite_opposite, Ne.symm hda] <;>
    exact OnePerColor.set_self _ _ _ hking

/-- The pawn bitboard across a promotion: moved a→b, cleared at b by the
promotion rewrite, restored by re-setting a on unmake. -/
theorem promo_pawn_net (P a b : Nat) (ha : a < 64) (hb : b < 64) (hab : a ≠ b)
    (hP : P < 2 ^ 64) (hPa : P.testBit a = true) (hPb : P.testBit b = false) :
    (clear_bit (move_bit P (2 ^ a) (2 ^ b)) (2 ^ b)) ||| 2 ^ a = P := by
  apply Nat.eq_of_testBit_eq
  intro i
  simp only [clear_bit, move_bit, Nat.testBit_or, Nat.testBit_and,
    Nat.testBit_xor, Nat.testBit_two_pow, testBit_U64MAX]
  by_cases hi : i < 64
  · by_cases hia : a = i <;> by_cases hib : b = i <;>
      simp_all [Bool.xor_false, Bool.xor_true]
  · have := testBit_high hP (Nat.le_of_not_lt hi)
    have h1 : ¬ (a = i) := by omega
    have h2 : ¬ (b = i) := by omega
    simp_all

set_option maxHeartbeats 4000000 in
/-- Make/unmake round trip for a quiet promotion: the pawn is restored on
the from-square, the promoted kind's bit at the target is removed, and
every other component except the en-passant target is restored. -/
theorem unmove_move_promo_quiet (bd : Board) (c : Color) (pos : Nat)
    (a b : Nat) (pk2 : PieceKind) (epf : Option Nat) (cast : Nat)
    (ha : a < 64) (hb : b < 64) (hab : a ≠ b)
    (hpk2P : pk2 ≠ .Pawn) (hpk2K : pk2 ≠ .King)
    (hPa : bd.pawns.testBit a = true)
    (hkindb : ∀ k2, (kindBoard bd k2).testBit b = false)
    (hCa : (colorBoard bd c).testBit a = true)
    (hCb : (colorBoard bd c).testBit b = false)
    (hP : bd.pawns < 2 ^ 64) (hN : bd.knights < 2 ^ 64) (hB : bd.bishops < 2 ^ 64)
    (hR : bd.rooks < 2 ^ 64) (hQ : bd.queens < 2 ^ 64) (hK : bd.kings < 2 ^ 64) :
    (bd.move_piece
      { what := ⟨c, .Pawn, pos⟩, fromSq := 2 ^ a, toSq := 2 ^ b, capture := none,
        promotion := some pk2, en_passant := epf, castling := cast,
        castle_move := none }).unmove_piece
      { what := ⟨c, .Pawn, pos⟩, fromSq := 2 ^ a, toSq := 2 ^ b, capture := none,
        promotion := some pk2, en_passant := epf, castling := cast,
        castle_move := none } =
    { bd with en_passant := none } := by
  have hkP := hkindb .Pawn
  have hkN := hkindb .Knight
  have hkB := hkindb .Bishop
  have hkR := hkindb .Rook
  have hkQ := hkindb .Queen
  have hkK := hkindb .King
  clear hkindb
  cases pk2 <;> cases c <;>
    simp_all [Board.move_piece, Board.unmove_piece, kindBoard, colorBoard,
      move_bit_roundtrip, promo_pawn_net, spawn_clear_bit, xor_xor_cancel,
      opposite_opposite]

set_option maxHeartbeats 4000000 in
/-- Make/unmake round trip for a capture promotion (the captured piece
stands on the promotion square and is neither a pawn nor a king). -/
theorem unmove_move_promo_capture (bd : Board) (c : Color) (pos pos2 : Nat)
    (a b : Nat) (pk2 : PieceKind) (pc : Color) (pk : PieceKind)
    (epf : Option Nat) (cast : Nat)
    (ha : a < 64) (hb : b < 64) (hab : a ≠ b)
    (hpk2P : pk2 ≠ .Pawn) (hpk2K : pk2 ≠ .King)
    (hpc : pc = c.opposite) (hpkK : pk ≠ .King) (hpkP : pk ≠ .Pawn)
    (hPa : bd.pawns.testBit a = true)
    (hkindb : ∀ k2, (kindBoard bd k2).testBit b = decide (k2 = pk))
    (hcolb : ∀ c2, (colorBoard bd c2).testBit b = decide (c2 = pc))
    (hCa : (colorBoard bd c).testBit a = true)
    (hP : bd.pawns < 2 ^ 64) (hN : bd.knights < 2 ^ 64) (hB : bd.bishops < 2 ^ 64)
    (hR : bd.rooks < 2 ^ 64) (hQ : bd.queens < 2 ^ 64) (hK : bd.kings < 2 ^ 64)
    (hW : bd.white < 2 ^ 64) (hBl : bd.black < 2 ^ 64) :
    ((bd.move_piece
      { what := ⟨c, .Pawn, pos⟩, fromSq := 2 ^ a, toSq := 2 ^ b,
        capture := some ⟨pc, pk, 2 ^ b⟩, promotion := some pk2, en_passant := epf,
        castling := cast, castle_move := none }).unmove_piece
      { what := ⟨c, .Pawn, pos2⟩, fromSq := 2 ^ a, toSq := 2 ^ b,
        capture := some ⟨pc, pk, 2 ^ b⟩, promotion := some pk2, en_passant := epf,
        castling := cast, castle_move := none }).spawn_piece ⟨pc, pk, 2 ^ b⟩ =
    { bd with en_passant := none } := by
  subst hpc
  have hkP := hkindb .Pawn
  have hkN := hkindb .Knight
  have hkB := hkindb .Bishop
  have hkR := hkindb .Rook
  have hkQ := hkindb .Queen
  have hkK := hkindb .King
  have hcW := hcolb .White
  have hcB := hcolb .Black
  clear hkindb hcolb
  cases pk <;> cases pk2 <;> cases c <;>
    simp_all [Board.move_piece, Board.unmove_piece, Board.spawn_piece,
      Board.clear_piece, kindBoard, colorBoard, opposite_white, opposite_black,
      move_bit_roundtrip, promo_pawn_net, spawn_clear_bit, clear_bit_spawn,
      testBit_clear_ne, testBit_clear_self, clear_bit_lt, xor_xor_cancel,
      opposite_opposite]

/-- Clearing one square and setting another, then undoing both, is the
identity (the rook slide of castling). -/
theorem clear_spawn_clear_spawn (X e h2 : Nat) (hX : X < 2 ^ 64)
    (he : e < 64) (hh : h2 < 64) (heh : e ≠ h2)
    (hXe : X.testBit e = true) (hXh : X.testBit h2 = false) :
    clear_bit (clear_bit X (2 ^ e) ||| 2 ^ h2) (2 ^ h2) ||| 2 ^ e = X := by
  apply Nat.eq_of_testBit_eq
  intro i
  simp only [clear_bit, Nat.testBit_or, Nat.testBit_and, Nat.testBit_xor,
    Nat.testBit_two_pow, testBit_U64MAX]
  by_cases hi : i < 64
  · by_cases hie : e = i <;> by_cases hih : h2 = i <;>
      simp_all [Bool.xor_false, Bool.xor_true]
  · have := testBit_high hX (Nat.le_of_not_lt hi)
    have h1 : ¬ (e = i) := by omega
    have h2 : ¬ (h2 = i) := by omega
    simp_all

set_option maxHeartbeats 4000000 in
/-- Make/unmake round trip for a castling move: the king's and the rook's
slides are both undone and every component except the en-passant target is
restored. -/
theorem unmove_move_castle (bd : Board) (c : Color) (pos : Nat)
    (a b e h2 : Nat) (epf : Option Nat) (cast : Nat)
    (ha : a < 64) (hb : b < 64) (he : e < 64) (hh : h2 < 64)
    (hab : a ≠ b) (hea : e ≠ a) (heb : e ≠ b) (hha : h2 ≠ a) (hhb : h2 ≠ b)
    (heh : e ≠ h2)
    (hKa : bd.kings.testBit a = true) (hKb : bd.kings.testBit b = false)
    (hRe : bd.rooks.testBit e = true) (hRh : bd.rooks.testBit h2 = false)
    (hCa : (colorBoard bd c).testBit a = true)
    (hCb : (colorBoard bd c).testBit b = false)
    (hCe : (colorBoard bd c).testBit e = true)
    (hCh : (colorBoard bd c).testBit h2 = false)
    (hR : bd.rooks < 2 ^ 64) (hW : bd.white < 2 ^ 64) (hBl : bd.black < 2 ^ 64)
    (hking : bd.king_position.get c = some (idx (2 ^ a))) :
    (bd.move_piece
      { what := ⟨c, .King, pos⟩, fromSq := 2 ^ a, toSq := 2 ^ b, capture := none,
        promotion := none, en_passant := epf, castling := cast,
        castle_move := some (2 ^ e, 2 ^ h2) }).unmove_piece
      { what := ⟨c, .King, pos⟩, fromSq := 2 ^ a, toSq := 2 ^ b, capture := none,
        promotion := none, en_passant := epf, castling := cast,
        castle_move := some (2 ^ e, 2 ^ h2) } =
    { bd with en_passant := none } := by
  cases c <;>
    simp_all [Board.move_piece, Board.unmove_piece, Board.spawn_piece,
      Board.clear_piece, Piece.new, kindBoard, colorBoard, OnePerColor.set_set,
      move_bit_roundtrip, clear_bit_spawn, spawn_clear_bit, testBit_clear_ne,
      testBit_clear_self, testBit_or_ne, clear_bit_lt, or_pow_lt,
      xor_xor_cancel, opposite_opposite, Ne.symm hea, Ne.symm heb,
      Ne.symm hha, Ne.symm hhb] <;>
    exact ⟨clear_spawn_clear_spawn _ _ _ hR he hh heh hRe hRh,
      clear_spawn_clear_spawn _ _ _ (by assumption) he hh heh hCe hCh,
      OnePerColor.set_self _ _ _ hking⟩

set_option maxHeartbeats 1600000 in
/-- C2, amended: `make_move(m); unmake_move(m)` restores every component
of the game state — bitboards, castling mask, turn, history and counters —
except the en-passant target, which `unmake_move` unconditionally clears
(the history stores bare moves, so the pre-move target is unrecoverable).
The round trip is bit-equal to the original state exactly when that state
had no en-passant target. -/
theorem c2_round_trip_exact_modulo_en_passant (g : Game) (m : Move)
    (hhm : g.halfmove_clock < 256) (hfm : g.fullmove_number < 65536)
    (hok : RoundTripOk g.board m) :
    (g.make_move m).unmake_move m =
      { g with board := { g.board with en_passant := none } } := by
  obtain ⟨bd, turn, hist, hm, fm⟩ := g
  obtain ⟨⟨c, k, pos⟩, fs, ts, cap, promo, epf, cast, cm⟩ := m
  simp only [RoundTripOk] at hok
  obtain ⟨⟨hP, hN, hB, hR, hQ, hK, hW, hBl⟩, hshape⟩ := hok
  have hhm2 : hm < 256 := hhm
  have hfm2 : fm < 65536 := hfm
  clear hhm hfm
  cases cap with
  | none =>
    cases promo with
    | none =>
      cases cm with
      | none =>
        simp only [shape_ok] at hshape
        obtain ⟨a, b, hfs, hts, ha, hb, hab, h1, h2, h3, h4, hking⟩ := hshape
        subst hfs hts
        simp only [Game.make_move, Game.unmake_move, Game.mk.injEq, List.tail_cons]
        refine ⟨?_, opposite_opposite turn, trivial, by omega, by omega⟩
        exact unmove_move_quiet bd c k pos a b epf cast ha hb hab h1 h2 h3 h4 hking
      | some rm =>
        simp only [shape_ok] at hshape
        obtain ⟨hk, a, b, e, h2, hfs, hts, hrm, ha, hb, he, hh, hab, hea, heb,
          hha, hhb, heh, hKa, hKb, hRe, hRh, hCa, hCb, hCe, hCh, hking⟩ := hshape
        subst hk hfs hts hrm
        simp only [Game.make_move, Game.unmake_move, Game.mk.injEq, List.tail_cons]
        refine ⟨?_, opposite_opposite turn, trivial, by omega, by omega⟩
        exact unmove_move_castle bd c pos a b e h2 epf cast ha hb he hh hab
          hea heb hha hhb heh hKa hKb hRe hRh hCa hCb hCe hCh hR hW hBl hking
    | some pk2 =>
      cases cm with
      | none =>
        simp only [shape_ok] at hshape
        obtain ⟨hk, hpk2P, hpk2K, a, b, hfs, hts, ha, hb, hab, hPa, hkindb,
          hCa, hCb⟩ := hshape
        subst hk hfs hts
        simp only [Game.make_move, Game.unmake_move, Game.mk.injEq, List.tail_cons]
        refine ⟨?_, opposite_opposite turn, trivial, by omega, by omega⟩
        exact unmove_move_promo_quiet bd c pos a b pk2 epf cast ha hb hab
          hpk2P hpk2K hPa hkindb hCa hCb hP hN hB hR hQ hK
      | some rm =>
        simp only [shape_ok] at hshape
  | some cp =>
    cases promo with
    | none =>
      cases cm with
      | none =>
        simp only [shape_ok] at hshape
        obtain ⟨a, b, d, pc, pk, hfs, hts, hcp, ha, hb, hd, hab, hda, hpc, hpkK,
          hKa, hCa, hkindb, hcolb, hpkd, hpcd, hking⟩ := hshape
        subst hfs hts hcp
        simp only [Game.make_move, Game.unmake_move, Game.mk.injEq, List.tail_cons]
        refine ⟨?_, opposite_opposite turn, trivial, by omega, by omega⟩
        exact unmove_move_capture bd c k pos pos a b d pc pk epf cast
          ha hb hd hab hda hpc hpkK hKa hCa hkindb hcolb hpkd hpcd
          hP hN hB hR hQ hK hW hBl hking
      | some rm =>
        simp only [shape_ok] at hshape
    | some pk2 =>
      cases cm with
      | none =>
        simp only [shape_ok] at hshape
        obtain ⟨hk, hpk2P, hpk2K, a, b, pc, pk, hfs, hts, hcp, ha, hb, hab,
          hpc, hpkK, hpkP, hPa, hkindb, hcolb, hCa⟩ := hshape
        subst hk hfs hts hcp
        simp only [Game.make_move, Game.unmake_move, Game.mk.injEq, List.tail_cons]
        refine ⟨?_, opposite_opposite turn, trivial, by omega, by omega⟩
        exact unmove_move_promo_capture bd c pos pos a b pk2 pc pk epf cast
          ha hb hab hpk2P hpk2K hpc hpkK hpkP hPa hkindb hcolb hCa
          hP hN hB hR hQ hK hW hBl
      | some rm =>
        simp only [shape_ok] at hshape

/-- The amended C2 round trip at a concrete input: the knight move g1-f3
from the starting position comes back to the starting position with the
(already empty) en-passant target cleared. -/
theorem c2_round_trip_exact_modulo_en_passant_witness :
    (start_game.make_move c2_nf3).unmake_move c2_nf3 =
      { start_game with board := { start_game.board with en_passant := none } } := by
  exact c2_round_trip_exact_modulo_en_passant start_game c2_nf3 (by decide) (by decide)
    ⟨by decide, 6, 21, by decide, by decide, by decide, by decide, by decide,
     by decide, by decide, by decide, by decide, by decide⟩

end Chess

namespace Legacy

/-- C10: in the older `src/board.rs` snapshot, any single-bit square hit in
one of the six kind bitboards is reported with colour White (the occupancy
masks are never consulted for the colour), and a Black-coloured result is
always a Pawn, produced exactly when the square is in the black occupancy
but in none of the kind bitboards. -/
theorem c10_get_piece_color_fixed_white (b : Board) (sq n : Nat)
    (hsq : sq = 2 ^ n) :
    ((b.pawns &&& sq ≠ 0 ∨ b.knights &&& sq ≠ 0 ∨ b.bishops &&& sq ≠ 0 ∨
      b.rooks &&& sq ≠ 0 ∨ b.queens &&& sq ≠ 0 ∨ b.kings &&& sq ≠ 0) →
      ∃ k, b.get_piece sq = some (Piece.new .White k)) ∧
    (∀ p, b.get_piece sq = some p → p.color = Chess.Color.Black →
      p.kind = Chess.PieceKind.Pawn ∧ b.black &&& sq ≠ 0 ∧
      b.pawns &&& sq = 0 ∧ b.knights &&& sq = 0 ∧ b.bishops &&& sq = 0 ∧
      b.rooks &&& sq = 0 ∧ b.queens &&& sq = 0 ∧ b.kings &&& sq = 0) := by
  constructor
  · intro hk
    unfold Board.get_piece
    repeat' split
    all_goals first | exact ⟨_, rfl⟩ | tauto
  · intro p hp hcol
    unfold Board.get_piece at hp
    repeat' split at hp
    all_goals try simp_all [Piece.new]
    all_goals first
      | (rw [← hp]; try rfl)
      | (rw [← hp] at hcol; exact absurd hcol (by decide))

theorem c10_get_piece_color_fixed_white_witness :
    (∃ k, sample_board.get_piece 0x10 = some (Piece.new .White k)) ∧
    (Chess.PieceKind.Pawn = Chess.PieceKind.Pawn ∧
      sample_board.black &&& 0x200 ≠ 0 ∧
      sample_board.pawns &&& 0x200 = 0 ∧ sample_board.knights &&& 0x200 = 0 ∧
      sample_board.bishops &&& 0x200 = 0 ∧ sample_board.rooks &&& 0x200 = 0 ∧
      sample_board.queens &&& 0x200 = 0 ∧ sample_board.kings &&& 0x200 = 0) :=
  ⟨(c10_get_piece_color_fixed_white sample_board 0x10 4 rfl).1 (Or.inl (by decide)),
   (c10_get_piece_color_fixed_white sample_board 0x200 9 rfl).2
     (Piece.new .Black .Pawn) (by decide) rfl⟩

end Legacy
